import Mathlib

/-!
# Verification of the vault-editor marker/rewrite pipeline

Shallow embedding of the core logic of the `vault-editor` repository:

* `src/vault_editor/notes.py` — the marker grammar (`MARKER_PATTERN`,
  `find_markers`);
* `src/vault_editor/images.py` — filename sanitization, the filename used by
  `download_image`, the resolver strategies and `generate_openai_image`
  (HTTP calls abstracted into an explicit `Fetch` outcome, JSON navigation
  abstracted into the option values the Python code extracts);
* `src/scripts/insert_images.py` — `build_replacement`, the marker-rewrite
  loop of `process_note`, and the per-note driver portion of `main`;
* `src/vault_editor/config.py` / `src/scripts/needs_info.py` — the `Config`
  field set and the attribute access performed by the enrichment tool.

Python strings are modelled as `List Char`; Python string slicing on
non-negative indices is `List.take`/`List.drop`.  Regular-expression
matching is modelled by a hand-translated backtracking parser that follows
the single regex of the source (`MARKER_PATTERN`) alternative-by-alternative
in the exact preference order of the Python `re` engine (ordered alternation,
greedy `?`/`*`, lazy `+?`), and `re.finditer` is the leftmost,
non-overlapping scan `find_markers_go`.
-/

/-- Python `\s` on the ASCII range (space, tab, newline, carriage return,
vertical tab, form feed), as used by `re.sub(r"\s+", ...)` and the `\s*`
pieces of `MARKER_PATTERN`.  (Non-ASCII whitespace is outside the model.) -/
def isPySpace (c : Char) : Bool :=
  c == ' ' || c == '\t' || c == '\n' || c == '\r' || c == '\x0b' || c == '\x0c'

/-- Python `str.strip()`: remove leading and trailing whitespace. -/
def pyStrip (cs : List Char) : List Char :=
  ((cs.dropWhile isPySpace).reverse.dropWhile isPySpace).reverse

/-- The two quote characters recognized by the `(?P<quote>["'])` group. -/
def isQuoteChar (c : Char) : Bool :=
  c == '"' || c == Char.ofNat 39

/-! ## The marker grammar (src/vault_editor/notes.py, lines 8-45)

`MARKER_PATTERN` is

```
(?P<quote>["'])?<!--\s*(?P<kind>IMAGE|BOOK|BOOKISBN|AIIMAGE|MOVIE|TV)
  \s*:\s*(?P<query>[^|>]+?)\s*(\|\s*(?P<alt>[^>]+?)\s*)?-->(?P=quote)?
```

with `re.IGNORECASE`.  Each regex construct is translated into a CPS
combinator whose backtracking order is the preference order of the Python
engine: `X?` tries the one-character branch before the empty branch,
`\s*` consumes greedily and backtracks to shorter prefixes, `[..]+?` is
lazy (shortest first), and `A|B|...` tries alternatives left to right. -/

/-- Greedy `\s*` with backtracking: try consuming the longest whitespace run
first, then shorter and shorter prefixes, feeding the rest to `k`. -/
def wsStar (cs : List Char) (k : List Char → Option α) : Option α :=
  match cs with
  | [] => k []
  | c :: rest => if isPySpace c then (wsStar rest k) <|> k (c :: rest) else k (c :: rest)

/-- Lazy `[pred]+?`: at least one character satisfying `pred`, shortest
capture tried first; `k` receives the captured run and the rest. -/
def lazyPlus (pred : Char → Bool) (cs : List Char) (k : List Char → List Char → Option α) :
    Option α :=
  match cs with
  | [] => none
  | c :: rest =>
      if pred c then (k [c] rest) <|> lazyPlus pred rest (fun t r => k (c :: t) r)
      else none

/-- Case-sensitive literal: consume exactly `pat`, return the rest. -/
def lit : List Char → List Char → Option (List Char)
  | [], cs => some cs
  | _ :: _, [] => none
  | p :: ps, c :: cs => if c = p then lit ps cs else none

/-- Case-insensitive literal (the `re.IGNORECASE` flag on the kind words),
compared on ASCII lower case. -/
def litCI : List Char → List Char → Option (List Char)
  | [], cs => some cs
  | _ :: _, [] => none
  | p :: ps, c :: cs => if c.toLower = p.toLower then litCI ps cs else none

/-- Sequence a literal with a continuation. -/
def litK (pat : List Char) (cs : List Char) (k : List Char → Option α) : Option α :=
  match lit pat cs with
  | some cs1 => k cs1
  | none => none

/-- The six kind alternatives, in the order they appear in `MARKER_PATTERN`
(`IMAGE|BOOK|BOOKISBN|AIIMAGE|MOVIE|TV`). -/
def kindAlts : List String := ["IMAGE", "BOOK", "BOOKISBN", "AIIMAGE", "MOVIE", "TV"]

/-- Ordered alternation over the kind words: try each alternative left to
right; on a literal match run the continuation, backtracking into the next
alternative if it fails. -/
def tryKinds (alts : List String) (cs : List Char) (k : String → List Char → Option α) :
    Option α :=
  match alts with
  | [] => none
  | a :: rest =>
      (match litCI a.toList cs with
       | some cs1 => k a cs1
       | none => none) <|> tryKinds rest cs k

/-- `(?P<quote>["'])?` — greedy optional quote: if the head is a quote
character, try capturing it first, then the no-quote branch. -/
def tryQuote (cs : List Char) (k : Option Char → List Char → Option α) : Option α :=
  match cs with
  | [] => k none []
  | c :: rest =>
      if isQuoteChar c then (k (some c) rest) <|> k none (c :: rest)
      else k none (c :: rest)

/-- `(?P=quote)?` — greedy optional back-reference: when a quote was
captured and the next character equals it, try consuming it first; a
back-reference to an uncaptured group never matches, so with no captured
quote the group matches empty. -/
def closeQuote (q : Option Char) (cs : List Char) (k : List Char → Option α) : Option α :=
  match q, cs with
  | some qc, c :: rest => if c = qc then (k rest) <|> k (c :: rest) else k (c :: rest)
  | _, _ => k cs

/-- Characters allowed in the lazy query group `[^|>]+?`. -/
def notPipeGt (c : Char) : Bool := !(c == '|' || c == '>')

/-- Characters allowed in the lazy alt group `[^>]+?`. -/
def notGt (c : Char) : Bool := !(c == '>')

/-- A successful match of `MARKER_PATTERN`: the captured groups plus the
unconsumed suffix of the input. -/
structure RawMatch where
  quote : Option Char
  kind : String
  query : List Char
  alt : Option (List Char)
  rest : List Char
  deriving Repr, DecidableEq

/-- `-->` followed by the optional closing quote: the tail of the pattern. -/
def afterAlt (q : Option Char) (kind : String) (query : List Char)
    (alt : Option (List Char)) (cs : List Char) : Option RawMatch :=
  litK ['-', '-', '>'] cs (fun cs1 =>
    closeQuote q cs1 (fun cs2 => some ⟨q, kind, query, alt, cs2⟩))

/-- `(\|\s*(?P<alt>[^>]+?)\s*)?` — greedy optional alt group: try the
group-present branch (a literal `|`, whitespace, the lazy alt capture,
whitespace) before the group-absent branch. -/
def altGroup (cs : List Char) (k : Option (List Char) → List Char → Option α) : Option α :=
  (match cs with
   | c :: cs1 =>
       if c = '|' then
         wsStar cs1 (fun cs2 =>
           lazyPlus notGt cs2 (fun alt cs3 =>
             wsStar cs3 (fun cs4 => k (some alt) cs4)))
       else none
   | [] => none) <|> k none cs

/-- `\s*(\|...)?-->(?P=quote)?` — everything after the query capture. -/
def afterQuery (q : Option Char) (kind : String) (query : List Char) (cs : List Char) :
    Option RawMatch :=
  wsStar cs (fun cs1 => altGroup cs1 (fun alt cs2 => afterAlt q kind query alt cs2))

/-- `\s*:\s*(?P<query>[^|>]+?)...` — everything after the kind word. -/
def afterKind (q : Option Char) (kind : String) (cs : List Char) : Option RawMatch :=
  wsStar cs (fun cs1 =>
    litK [':'] cs1 (fun cs2 =>
      wsStar cs2 (fun cs3 =>
        lazyPlus notPipeGt cs3 (fun query cs4 => afterQuery q kind query cs4))))

/-- `\s*(?P<kind>...)...` — everything after the literal `<!--`. -/
def afterOpener (q : Option Char) (cs : List Char) : Option RawMatch :=
  wsStar cs (fun cs1 => tryKinds kindAlts cs1 (fun kind cs2 => afterKind q kind cs2))

/-- `<!--...` — everything after the optional opening quote. -/
def afterQuote (q : Option Char) (cs : List Char) : Option RawMatch :=
  litK ['<', '!', '-', '-'] cs (fun cs1 => afterOpener q cs1)

/-- Attempt to match `MARKER_PATTERN` at the head of `cs` (the anchored
match the `re` engine attempts at each scan position). -/
def matchCore (cs : List Char) : Option RawMatch :=
  tryQuote cs afterQuote

/-- The `ImageMarker` dataclass of src/vault_editor/notes.py. -/
structure ImageMarker where
  kind : String
  query : List Char
  alt : Option (List Char)
  quoted : Bool
  quote_char : Option Char
  start : Nat
  «end» : Nat
  deriving Repr, DecidableEq

/-- The scan loop of `re.finditer` inside `find_markers`: attempt an
anchored match at every position from left to right; on a match, record a
marker (normalizing the kind to upper case — the alternatives are stored in
canonical form — and stripping query and alt as `find_markers` does) and
resume at the match end (a regex that matched empty would resume one
further, which `max len 1` encodes); on failure advance one position.
`fuel` is an upper bound on the number of remaining scan steps; positions
advance by at least one per step, so `text.length + 1` is always enough. -/
def find_markers_go (text : List Char) : Nat → Nat → List ImageMarker
  | 0, _ => []
  | fuel + 1, i =>
      if i ≤ text.length then
        match matchCore (text.drop i) with
        | some r =>
            let len := (text.drop i).length - r.rest.length
            { kind := r.kind
              query := pyStrip r.query
              alt := r.alt.map pyStrip
              quoted := r.quote.isSome
              quote_char := r.quote
              start := i
              «end» := i + len } :: find_markers_go text fuel (i + max len 1)
        | none => find_markers_go text fuel (i + 1)
      else []

/-- `find_markers` (src/vault_editor/notes.py, lines 25-45). -/
def find_markers (text : List Char) : List ImageMarker :=
  find_markers_go text (text.length + 1) 0

/-! ## Filenames and resolver strategies (src/vault_editor/images.py) -/

/-- The character class `[A-Za-z0-9._-]` kept by `_sanitize_filename`. -/
def isAllowedFilenameChar (c : Char) : Bool :=
  c.isAlpha || c.isDigit || c == '.' || c == '_' || c == '-'

/-- `re.sub(r"\s+", "_", name)`: replace every maximal whitespace run with a
single underscore.  `prevWs` records whether the previous character was part
of a run already replaced. -/
def collapseWs (prevWs : Bool) : List Char → List Char
  | [] => []
  | c :: rest =>
      if isPySpace c then
        (if prevWs then [] else ['_']) ++ collapseWs true rest
      else c :: collapseWs false rest

/-- `_sanitize_filename` (src/vault_editor/images.py, lines 31-34):
collapse whitespace runs to `_`, drop characters outside `[A-Za-z0-9._-]`,
and return the first 120 characters — or `"image"` when nothing is left. -/
def _sanitize_filename (name : List Char) : List Char :=
  let n1 := collapseWs false name
  let n2 := n1.filter isAllowedFilenameChar
  if n2 = [] then "image".toList else n2.take 120

/-- The extension allow-list of `download_image`
(`(".png", ".jpg", ".jpeg", ".gif", ".webp")`). -/
def recognizedExts : List (List Char) :=
  [".png".toList, ".jpg".toList, ".jpeg".toList, ".gif".toList, ".webp".toList]

/-- `filename.lower().endswith(recognizedExts)`. -/
def endsWithRecognizedExt (cs : List Char) : Bool :=
  recognizedExts.any (fun e => e.isSuffixOf (cs.map Char.toLower))

/-- The filename computed by `download_image` (src/vault_editor/images.py,
lines 304-311) from the basename of the result URL: sanitize it, and append
`.jpg` when the lower-cased name does not end in a recognized extension.
(The basename extraction `Path(result.url).name` is taken as the input.) -/
def download_filename (urlBasename : List Char) : List Char :=
  let filename := _sanitize_filename urlBasename
  if endsWithRecognizedExt filename then filename else filename ++ ".jpg".toList

/-- The `ImageResult` dataclass (title, url). -/
structure ImageResult where
  title : List Char
  url : List Char
  deriving Repr, DecidableEq

/-- The outcome of one `requests.get`/`requests.head`/`requests.post` call:
either the request itself raised `requests.RequestException` (connection
failure, timeout), or a response with a status code and a body.  The body
type is the data the Python code extracts from the response JSON. -/
inductive Fetch (β : Type) where
  | exn : Fetch β
  | resp (status : Nat) (body : β) : Fetch β
  deriving Repr, DecidableEq

/-- The exceptions a strategy can raise out of the network layer:
`requests.RequestException` propagating from the call itself, the
`requests.HTTPError` raised by `raise_for_status()` on a 4xx/5xx status,
and the `ValueError`s raised by `generate_openai_image`. -/
inductive PyExc where
  | requestException : PyExc
  | httpError : PyExc
  | valueError (msg : String) : PyExc
  deriving Repr, DecidableEq

/-- `response.raise_for_status()` raises exactly for 400 ≤ status < 600. -/
def raisesForStatus (status : Nat) : Bool :=
  decide (400 ≤ status) && decide (status < 600)

/-- Python `x or default` on an optional string: `None` and the empty
string are both falsy. -/
def pyOr (a : Option (List Char)) (b : List Char) : List Char :=
  match a with
  | some t => if t = [] then b else t
  | none => b

/-- `search_wikimedia` (src/vault_editor/images.py, lines 37-75).  Two GET
calls, each followed by `raise_for_status()`.  `f1`'s body is the title of
the first search result (`none` when the search list is empty); `f2`'s body
is the url found by the `pages`/`imageinfo` walk (`none` when no page has a
usable url). -/
def search_wikimedia (f1 : Fetch (Option (List Char))) (f2 : Fetch (Option (List Char))) :
    Except PyExc (Option ImageResult) :=
  match f1 with
  | .exn => .error .requestException
  | .resp s1 b1 =>
      if raisesForStatus s1 then .error .httpError
      else
        match b1 with
        | none => .ok none
        | some title =>
            match f2 with
            | .exn => .error .requestException
            | .resp s2 b2 =>
                if raisesForStatus s2 then .error .httpError
                else
                  match b2 with
                  | none => .ok none
                  | some url => .ok (some ⟨title, url⟩)

/-- `search_open_library_cover` (src/vault_editor/images.py, lines 78-99).
One GET plus `raise_for_status()`.  The body is the first doc of the search
result (`none` when `docs` is empty), carrying its optional `cover_i` and
optional `title`; `if not cover_id` treats both a missing id and the falsy
`0` as absent, and the title falls back to the query (`or query`). -/
def search_open_library_cover (query : List Char)
    (f : Fetch (Option (Option Nat × Option (List Char)))) :
    Except PyExc (Option ImageResult) :=
  match f with
  | .exn => .error .requestException
  | .resp s b =>
      if raisesForStatus s then .error .httpError
      else
        match b with
        | none => .ok none
        | some (cover_i, titleOpt) =>
            let title := pyOr titleOpt query
            match cover_i with
            | none => .ok none
            | some cid =>
                if cid = 0 then .ok none
                else
                  .ok (some ⟨title,
                    ("https://covers.openlibrary.org/b/id/" ++ toString cid ++ "-L.jpg").toList⟩)

/-- The ISBN character class kept by `re.sub(r"[^0-9Xx]", "", isbn)`. -/
def isIsbnChar (c : Char) : Bool := c.isDigit || c == 'X' || c == 'x'

/-- `search_open_library_isbn` (src/vault_editor/images.py, lines 102-117).
Sanitize the query to ISBN characters; on an empty result return `None`.
Then probe the cover endpoint with `requests.head` *inside a
`try/except requests.RequestException` block*: a request exception and a
status `>= 400` both return `None`; otherwise the cover url is returned. -/
def search_open_library_isbn (isbn : List Char) (probe : Fetch Unit) :
    Except PyExc (Option ImageResult) :=
  let isbn1 := isbn.filter isIsbnChar
  if isbn1 = [] then .ok none
  else
    match probe with
    | .exn => .ok none
    | .resp s _ =>
        if 400 ≤ s then .ok none
        else
          .ok (some ⟨("ISBN ").toList ++ isbn1,
            ("https://covers.openlibrary.org/b/isbn/").toList ++ isbn1 ++ ("-L.jpg").toList⟩)

/-- A TMDb search result entry, carrying the fields the code reads:
`poster_path`, `title` (movie), `name` (tv), `id`. -/
structure TmdbEntry where
  poster_path : Option (List Char)
  title : Option (List Char)
  name : Option (List Char)
  id : Option Int
  deriving Repr, DecidableEq

/-- `_tmdb_search_first_result` (src/vault_editor/images.py, lines 152-173):
with an empty api key return `None` without any network call; otherwise one
GET plus `raise_for_status()`, returning the first result (`none` when the
result list is empty). -/
def _tmdb_search_first_result (api_key : List Char) (f : Fetch (Option TmdbEntry)) :
    Except PyExc (Option TmdbEntry) :=
  if api_key = [] then .ok none
  else
    match f with
    | .exn => .error .requestException
    | .resp s b =>
        if raisesForStatus s then .error .httpError
        else .ok b

/-- `search_tmdb_poster` (src/vault_editor/images.py, lines 176-187). -/
def search_tmdb_poster (query : List Char) (api_key : List Char)
    (f : Fetch (Option TmdbEntry)) : Except PyExc (Option ImageResult) :=
  match _tmdb_search_first_result api_key f with
  | .error e => .error e
  | .ok none => .ok none
  | .ok (some entry) =>
      let title := pyOr entry.title query
      match entry.poster_path with
      | none => .ok none
      | some p =>
          if p = [] then .ok none
          else .ok (some ⟨title, ("https://image.tmdb.org/t/p/w500").toList ++ p⟩)

/-- `search_tmdb_tv_poster` (src/vault_editor/images.py, lines 190-201):
as `search_tmdb_poster` but on the tv endpoint and the `name` field. -/
def search_tmdb_tv_poster (query : List Char) (api_key : List Char)
    (f : Fetch (Option TmdbEntry)) : Except PyExc (Option ImageResult) :=
  match _tmdb_search_first_result api_key f with
  | .error e => .error e
  | .ok none => .ok none
  | .ok (some entry) =>
      let title := pyOr entry.name query
      match entry.poster_path with
      | none => .ok none
      | some p =>
          if p = [] then .ok none
          else .ok (some ⟨title, ("https://image.tmdb.org/t/p/w500").toList ++ p⟩)

/-- One entry of the `data` array of the OpenAI response: the optional
`b64_json` and `url` fields. -/
structure OpenAIImageEntry where
  b64_json : Option (List Char)
  url : Option (List Char)
  deriving Repr, DecidableEq

/-- `generate_openai_image` (src/vault_editor/images.py, lines 252-301).
An empty api key raises `ValueError` before any call.  The POST outcome is
`post`; a status `>= 400` raises `ValueError`, an empty `data` array raises
`ValueError`; with `b64_json` present the image is decoded and written and
the target path returned; otherwise a missing `url` raises `ValueError`,
and the URL download (`urlFetch`) propagates request exceptions and
`raise_for_status()` errors.  The returned value is the target filename
(`dest_dir` is prepended by the caller's filesystem, outside the model). -/
def generate_openai_image (prompt : List Char) (api_key : List Char)
    (post : Fetch (List OpenAIImageEntry)) (urlFetch : Fetch Unit) :
    Except PyExc (List Char) :=
  if api_key = [] then .error (.valueError "OpenAI API key is missing.")
  else
    let filename0 := (_sanitize_filename prompt).take 80
    let filename := if filename0 = [] then "openai_image".toList else filename0
    let target := filename ++ ".png".toList
    match post with
    | .exn => .error .requestException
    | .resp s entries =>
        if 400 ≤ s then .error (.valueError "OpenAI error")
        else
          match entries with
          | [] => .error (.valueError "OpenAI image generation returned no image data.")
          | entry :: _ =>
              match entry.b64_json with
              | some _ => .ok target
              | none =>
                  match entry.url with
                  | none =>
                      .error (.valueError "OpenAI image generation returned no usable image data.")
                  | some _ =>
                      match urlFetch with
                      | .exn => .error .requestException
                      | .resp s2 _ =>
                          if raisesForStatus s2 then .error .httpError
                          else .ok target

/-! ## The replacement formatter (src/scripts/insert_images.py, lines 35-49) -/

/-- `rel_path.replace(" ", "%20")`. -/
def percentEncodeSpaces (cs : List Char) : List Char :=
  cs.flatMap (fun c => if c = ' ' then "%20".toList else [c])

/-- `build_replacement` (src/scripts/insert_images.py, lines 35-49), taking
the already-relativized posix path (`image_path.relative_to(vault_path)
.as_posix()`, a filesystem computation outside the model) as input.
Branches in source order: `quoted` first (the quote character defaulting to
a double quote), then Python-truthy `alt` — `if alt:` is false both for
`None` and for the empty string — then the plain embed. -/
def build_replacement (rel_path : List Char) (alt : Option (List Char))
    (quoted : Bool) (quote_char : Option Char) : List Char :=
  if quoted then
    let quote := quote_char.getD '"'
    [quote] ++ "[[".toList ++ rel_path ++ "]]".toList ++ [quote]
  else
    match alt with
    | some a =>
        if a = [] then "![[".toList ++ rel_path ++ "]]".toList
        else "![".toList ++ a ++ "](".toList ++ percentEncodeSpaces rel_path ++ ")".toList
    | none => "![[".toList ++ rel_path ++ "]]".toList

/-- The formatter as claim C4 words it: quoting first, then `alt`
*present* (`isSome` — not Python truthiness), then the plain embed.
Written from the claim, to be compared against `build_replacement`. -/
def build_replacement_claimC4 (rel_path : List Char) (alt : Option (List Char))
    (quoted : Bool) (quote_char : Option Char) : List Char :=
  if quoted then
    let quote := quote_char.getD '"'
    [quote] ++ "[[".toList ++ rel_path ++ "]]".toList ++ [quote]
  else
    match alt with
    | some a => "![".toList ++ a ++ "](".toList ++ percentEncodeSpaces rel_path ++ ")".toList
    | none => "![[".toList ++ rel_path ++ "]]".toList

/-! ## The rewrite loop of process_note (src/scripts/insert_images.py, lines 52-114) -/

/-- The outcome of the per-marker resolution-and-download step, abstracting
the strategy call plus `download_image`: an image was resolved and
materialized (`found`, carrying the replacement text the formatter produced
and whether the attachment file already existed so `download_image` skipped
the write), no image was found (`notFound`), or the call raised
(`raiseExc`). -/
inductive Resolution where
  | found (replacement : List Char) (fileExisted : Bool) : Resolution
  | notFound : Resolution
  | raiseExc : Resolution
  deriving Repr, DecidableEq

/-- The strategy kinds dispatched by the `if/elif` chain of `process_note`. -/
def validKinds : List String := ["IMAGE", "BOOK", "BOOKISBN", "AIIMAGE", "MOVIE", "TV"]

/-- One arm of the `if/elif` dispatch of `process_note` (lines 67-98):
`AIIMAGE` wraps its strategy in `try/except Exception`, printing a warning
and leaving `image_path = None` on failure (and `generate_openai_image`
always writes its target file); the other five kinds let an exception
propagate; a kind outside the enumeration takes no branch, so
`image_path` stays `None`.  Returns the replacement to splice and whether
a file was written into the attachments directory. -/
def resolveStep (kind : String) (res : Resolution) :
    Except Unit (Option (List Char × Bool)) :=
  if kind = "AIIMAGE" then
    match res with
    | .raiseExc => .ok none
    | .notFound => .ok none
    | .found rep _ => .ok (some (rep, true))
  else if kind ∈ validKinds then
    match res with
    | .raiseExc => .error ()
    | .notFound => .ok none
    | .found rep existed => .ok (some (rep, !existed))
  else .ok none

/-- The `for marker in markers` loop of `process_note` (lines 64-113):
thread `updated`, the running `offset` (an integer: replacements may be
shorter than markers), the `replacements` counter and the number of files
written to the attachments directory; a resolved marker is spliced at
`marker.start + offset .. marker.end + offset` and the offset is advanced
by `len(replacement) - (marker.end - marker.start)`; an unresolved marker
is skipped with no splice and no offset change; an exception aborts the
note. -/
def process_note_loop (updated : List Char) (offset : Int) (reps : Nat) (dls : Nat) :
    List (ImageMarker × Resolution) → Except Unit (List Char × Nat × Nat)
  | [] => .ok (updated, reps, dls)
  | (m, res) :: rest =>
      match resolveStep m.kind res with
      | .error _ => .error ()
      | .ok none => process_note_loop updated offset reps dls rest
      | .ok (some (rep, wrote)) =>
          let start := ((m.start : Int) + offset).toNat
          let stop := ((m.«end» : Int) + offset).toNat
          let updated1 := updated.take start ++ rep ++ updated.drop stop
          let offset1 := offset + (rep.length : Int) - ((m.«end» : Int) - (m.start : Int))
          process_note_loop updated1 offset1 (reps + 1) (dls + if wrote then 1 else 0) rest

/-- `process_note` (src/scripts/insert_images.py, lines 52-114): find the
markers, return early when there are none, otherwise run the rewrite loop.
`resolutions` gives, position by position, the outcome of each marker's
resolution-and-download step.  Returns
`(updated text, marker count, replacement count, attachment files written)`
or the propagated exception. -/
def process_note (text : List Char) (resolutions : List Resolution) :
    Except Unit (List Char × Nat × Nat × Nat) :=
  let markers := find_markers text
  if markers = [] then .ok (text, 0, 0, 0)
  else
    match process_note_loop text 0 0 0 (markers.zip resolutions) with
    | .error _ => .error ()
    | .ok (updated, reps, dls) => .ok (updated, markers.length, reps, dls)

/-- The expected rewrite of claim C1, written from the spec's words: the
text before the first replaced marker, each replacement interleaved with
the untouched gaps between replaced markers, and the text after the last
replaced marker; a skipped marker contributes its original text to the
surrounding gap.  `pos` is the original-text position reached so far. -/
def expectedRewrite (text : List Char) : Nat → List (ImageMarker × Option (List Char)) →
    List Char
  | pos, [] => text.drop pos
  | pos, (_, none) :: rest => expectedRewrite text pos rest
  | pos, (m, some rep) :: rest =>
      (text.drop pos).take (m.start - pos) ++ rep ++ expectedRewrite text m.«end» rest

/-- Spans are in ascending original-position order, non-overlapping, and lie
inside a text of length `n`, starting no earlier than `pos`. -/
def pairsOk (n : Nat) : Nat → List (ImageMarker × Option (List Char)) → Bool
  | _, [] => true
  | pos, (m, _) :: rest =>
      decide (pos ≤ m.start) && decide (m.start ≤ m.«end») && decide (m.«end» ≤ n) &&
        pairsOk n m.«end» rest

/-- Map claim C1's `(marker, optional replacement)` view onto the loop's
resolution outcomes: a resolved marker with its replacement text, an
unresolved one skipped. -/
def toResolution : Option (List Char) → Resolution
  | none => .notFound
  | some rep => .found rep false

/-! ## The per-note driver of main (src/scripts/insert_images.py, lines 167-203) -/

/-- What the driver wrote for one note: whether the note file was
rewritten, whether a backup file was created, and how many files the
resolution step wrote into the attachments directory. -/
structure MainEffects where
  wroteNote : Bool
  wroteBackup : Bool
  attachmentWrites : Nat
  deriving Repr, DecidableEq

/-- The body of the `for note_path in notes` loop of `main` (lines
167-203) for one existing note: run `process_note` (its downloads happen
here, before any flag is consulted), then skip on no markers, no
replacements, or an unchanged text; in dry-run (`--apply` absent) print and
continue without writing; with confirmation required and neither `--yes`
nor a positive answer, skip; otherwise write the backup and the note.
`none` models an exception propagating out of `main` (the loop has no
`try/except`). -/
def main_note_step (applyFlag yesFlag confirmWrites confirmAnswer : Bool)
    (original : List Char) (resolutions : List Resolution) : Option MainEffects :=
  match process_note original resolutions with
  | .error _ => none
  | .ok (updated, markerCount, replacementCount, dls) =>
      if markerCount = 0 then some ⟨false, false, dls⟩
      else if replacementCount = 0 then some ⟨false, false, dls⟩
      else if updated = original then some ⟨false, false, dls⟩
      else if !applyFlag then some ⟨false, false, dls⟩
      else if confirmWrites && !yesFlag && !confirmAnswer then some ⟨false, false, dls⟩
      else some ⟨true, true, dls⟩

/-! ## Config and the enrichment tool's main
(src/vault_editor/config.py, src/scripts/needs_info.py) -/

/-- The fields of the frozen dataclass `Config`
(src/vault_editor/config.py, lines 8-15) — the only attributes a `Config`
instance has. -/
def configFields : List String :=
  ["vault_path", "openai_api_key", "tmdb_api_key", "attachments_dir",
   "backup_dir", "confirm_writes"]

/-- The `Config` attributes read by `main` of src/scripts/needs_info.py
(lines 228-248): `vault_path`, `attachments_dir`, `backup_dir`, and — in
the `process_note` call of line 242-251 — `tmdb_api_key` and
`tmdb_region`. -/
def needsInfoMainConfigAttrs : List String :=
  ["vault_path", "attachments_dir", "backup_dir", "tmdb_api_key", "tmdb_region"]

/-- How a tool run ends: a normal return with an exit code, or an uncaught
exception. -/
inductive RunOutcome where
  | completes (exit : Nat) : RunOutcome
  | raises (exc : String) : RunOutcome
  deriving Repr, DecidableEq

/-- Modelled from the spec and src/scripts/needs_info.py `main` (lines
204-256), given a valid configuration (the startup checks of `load_config`
passed): `notes` are the existence flags of the scanned note paths; a
non-existing note is skipped; for the first existing note the call at line
242 evaluates every argument, including `config.tmdb_region` (line 248) —
attribute lookup on the frozen dataclass succeeds only for fields declared
in `Config`, otherwise Python raises `AttributeError`.  The rest of the
per-note pipeline is irrelevant to claim C3 and is not modelled (it is
unreachable: the lookup always fails). -/
def needs_info_main (notes : List Bool) : RunOutcome :=
  if notes.any id then
    if configFields.contains "tmdb_region" then RunOutcome.completes 0
    else RunOutcome.raises "AttributeError"
  else RunOutcome.completes 0

/-! ## The claims' own wordings, where they differ from the code

Each of the following definitions transcribes a claim's statement (not the
source), for comparison with the embedded code. -/

/-- Claim C5 as stated for BOOKISBN: a request exception during the
cover-endpoint existence probe propagates out of the strategy. -/
def bookisbnPropagatesClaim : Prop :=
  ∀ isbn : List Char, ¬ isbn.filter isIsbnChar = [] →
    ∃ e, search_open_library_isbn isbn Fetch.exn = Except.error e

/-- Claim C6 as stated: dry-run mutates nothing at all — no note write, no
backup, and no new file in the attachments directory. -/
def dryRunNoMutationClaim : Prop :=
  ∀ (yesFlag confirmWrites confirmAnswer : Bool) (original : List Char)
    (res : List Resolution) (eff : MainEffects),
    main_note_step false yesFlag confirmWrites confirmAnswer original res = some eff →
    eff.wroteNote = false ∧ eff.wroteBackup = false ∧ eff.attachmentWrites = 0

/-- Claim C7 as stated: a marker is `quoted` iff the same quote character
both opens and closes its span (the span including both). -/
def markerSurroundedByQuotes (text : List Char) (m : ImageMarker) : Bool :=
  match text[m.start]?, text[m.«end» - 1]? with
  | some a, some b => a == b && isQuoteChar a
  | _, _ => false

/-- Claim C7 as stated, as a property of one document. -/
def quotedIffSurroundedClaim (text : List Char) : Prop :=
  ∀ m ∈ find_markers text, m.quoted = markerSurroundedByQuotes text m

/-! ## Sanitization lemmas (claims C9, C10) -/

lemma isPySpace_cases {c : Char} (h : isPySpace c = true) :
    c = ' ' ∨ c = '\t' ∨ c = '\n' ∨ c = '\r' ∨ c = '\x0b' ∨ c = '\x0c' := by
  simp only [isPySpace, Bool.or_eq_true, beq_iff_eq] at h
  tauto

lemma allowed_not_pySpace {c : Char} (h : isAllowedFilenameChar c = true) :
    isPySpace c = false := by
  cases hsp : isPySpace c with
  | false => rfl
  | true =>
      rcases isPySpace_cases hsp with h1 | h1 | h1 | h1 | h1 | h1 <;> subst h1 <;>
        simp [isAllowedFilenameChar] at h

lemma collapseWs_of_no_space (b : Bool) (l : List Char)
    (h : ∀ c ∈ l, isPySpace c = false) : collapseWs b l = l := by
  induction l generalizing b with
  | nil => rfl
  | cons c rest ih =>
      have hc : isPySpace c = false := h c (List.mem_cons_self c rest)
      simp only [collapseWs, hc, if_neg, Bool.false_eq_true, not_false_iff, List.cons.injEq,
        true_and]
      exact ih false (fun x hx => h x (List.mem_cons_of_mem c hx))

lemma sanitize_output_allowed (s : List Char) :
    ∀ c ∈ _sanitize_filename s, isAllowedFilenameChar c = true := by
  intro c hc
  simp only [_sanitize_filename] at hc
  split at hc
  · have himg : ∀ x ∈ "image".toList, isAllowedFilenameChar x = true := by decide
    exact himg c hc
  · have := List.take_subset 120 _ hc
    exact List.of_mem_filter this

lemma sanitize_output_ne_nil (s : List Char) : _sanitize_filename s ≠ [] := by
  simp only [_sanitize_filename]
  split
  · decide
  · next h =>
      intro hcon
      apply h
      have : 0 < ((collapseWs false s).filter isAllowedFilenameChar).length := by
        have hne := List.length_pos.mpr h
        omega
      have hlen := congrArg List.length hcon
      simp only [List.length_take, List.length_nil] at hlen
      omega

lemma sanitize_output_length (s : List Char) : (_sanitize_filename s).length ≤ 120 := by
  simp only [_sanitize_filename]
  split
  · decide
  · simp only [List.length_take]
    omega

lemma sanitize_fixed {t : List Char}
    (hall : ∀ c ∈ t, isAllowedFilenameChar c = true) (hne : t ≠ [])
    (hlen : t.length ≤ 120) : _sanitize_filename t = t := by
  have h1 : collapseWs false t = t :=
    collapseWs_of_no_space false t (fun c hc => allowed_not_pySpace (hall c hc))
  simp only [_sanitize_filename, h1, List.filter_eq_self.mpr hall, if_neg hne]
  exact List.take_of_length_le hlen

/-- Claim C10: filename sanitization is idempotent — applying
`_sanitize_filename` to its own output yields the same string. -/
theorem sanitize_filename_idempotent (s : List Char) :
    _sanitize_filename (_sanitize_filename s) = _sanitize_filename s :=
  sanitize_fixed (sanitize_output_allowed s) (sanitize_output_ne_nil s)
    (sanitize_output_length s)

lemma jpg_chars_allowed : ∀ c ∈ ".jpg".toList, isAllowedFilenameChar c = true := by
  decide

/-- Claim C9 (amended): the filename derived by `download_image` from the
locator basename consists only of allow-listed characters, its sanitized
base is at most 120 characters so the whole name is at most 124, and its
lower-cased form ends with a recognized image extension (`.jpg` having been
appended when none was present). -/
theorem download_filename_props (b : List Char) :
    (∀ c ∈ download_filename b, isAllowedFilenameChar c = true) ∧
    (download_filename b).length ≤ 124 ∧
    endsWithRecognizedExt (download_filename b) = true := by
  have hall := sanitize_output_allowed b
  have hlen := sanitize_output_length b
  simp only [download_filename]
  split
  · next hext =>
      exact ⟨hall, by omega, hext⟩
  · refine ⟨?_, ?_, ?_⟩
    · intro c hc
      rcases List.mem_append.mp hc with h | h
      · exact hall c h
      · exact jpg_chars_allowed c h
    · simp only [List.length_append]
      have : (".jpg".toList).length = 4 := by decide
      omega
    · simp only [endsWithRecognizedExt, List.any_eq_true]
      refine ⟨".jpg".toList, by decide, ?_⟩
      apply List.isSuffixOf_iff_suffix.mpr
      rw [List.map_append]
      have hmap : (".jpg".toList).map Char.toLower = ".jpg".toList := by decide
      rw [hmap]
      exact List.suffix_append _ _

set_option maxRecDepth 8000 in
/-- The length bound claim C9 states: at most 120 characters.  False: a
basename of 121 allowed characters with no recognized extension sanitizes
to 120 characters and then gains `.jpg`, giving 124. -/
theorem download_filename_claimC9_cex :
    ¬ (download_filename (List.replicate 121 'a')).length ≤ 120 := by
  decide

/-! ## The replacement formatter (claim C4) -/

/-- Claim C4 (amended): `build_replacement` evaluates its branches in
precedence order.  If `quoted` the output is the relative path in `[[...]]`
wrapped in the original quote character (a double quote when none was
captured), regardless of `alt`; otherwise, when `alt` is present *and
non-empty* (Python truthiness) the output is `![alt](path)` with spaces
percent-encoded; otherwise — including a present-but-empty `alt` — the
plain embed `![[path]]`. -/
theorem build_replacement_branches (rel : List Char) (alt : Option (List Char))
    (quoted : Bool) (qc : Option Char) :
    (quoted = true →
      build_replacement rel alt quoted qc =
        [qc.getD '"'] ++ "[[".toList ++ rel ++ "]]".toList ++ [qc.getD '"']) ∧
    (quoted = false → ∀ a, alt = some a → a ≠ [] →
      build_replacement rel alt quoted qc =
        "![".toList ++ a ++ "](".toList ++ percentEncodeSpaces rel ++ ")".toList) ∧
    (quoted = false → (alt = none ∨ alt = some []) →
      build_replacement rel alt quoted qc = "![[".toList ++ rel ++ "]]".toList) := by
  refine ⟨?_, ?_, ?_⟩
  · intro hq
    simp [build_replacement, hq]
  · intro hq a ha hne
    simp [build_replacement, hq, ha, hne]
  · intro hq ha
    rcases ha with h | h <;> simp [build_replacement, hq, h]

/-- Witness for C4's theorem at concrete inputs. -/
theorem build_replacement_branches_witness :
    build_replacement "a b.jpg".toList (some "x".toList) false none =
      "![x](a%20b.jpg)".toList ∧
    build_replacement "p.jpg".toList (some "x".toList) true none =
      "\"[[p.jpg]]\"".toList := by
  constructor
  · have h := (build_replacement_branches "a b.jpg".toList (some "x".toList) false none).2.1
      rfl "x".toList rfl (by decide)
    rw [h]
    decide
  · have h := (build_replacement_branches "p.jpg".toList (some "x".toList) true none).1 rfl
    rw [h]
    decide

/-- Claim C4 as stated, with `alt` *present* (not Python-truthy) selecting
the `![alt](...)` branch: false at `alt = some ""`, where the code falls
through to the plain embed. -/
theorem build_replacement_claimC4_cex :
    build_replacement "p".toList (some []) false none ≠
      build_replacement_claimC4 "p".toList (some []) false none := by
  decide

/-! ## Claim C3: the enrichment tool's main never reaches its return on a
non-empty vault -/

/-- Claim C3 is a code bug: `main` of src/scripts/needs_info.py passes
`config.tmdb_region` (line 248), but the frozen dataclass `Config` of
src/vault_editor/config.py declares no such field, so the lookup raises
`AttributeError` for the first existing note and `main` never reaches its
`return 0`. -/
theorem needs_info_main_attribute_error :
    needs_info_main [true] = RunOutcome.raises "AttributeError" ∧
    "tmdb_region" ∈ needsInfoMainConfigAttrs ∧
    "tmdb_region" ∉ configFields := by
  refine ⟨rfl, by decide, by decide⟩

/-! ## Claim C8: the generative-image strategy is guarded at its call site -/

lemma resolveStep_aiimage_raise :
    resolveStep "AIIMAGE" Resolution.raiseExc = .ok none := by
  simp [resolveStep]

/-- Claim C8: the generative-image strategy raises on a missing key, a
request failure, an error status and an empty image list; and at the
call site in `process_note` the exception is caught and treated as
marker-level not-found — the `AIIMAGE` marker is skipped with no splice,
no offset change and no replacement count, and the remaining markers of
the document are processed exactly as they would have been. -/
theorem aiimage_failure_guarded (m : ImageMarker) (hk : m.kind = "AIIMAGE")
    (u : List Char) (off : Int) (reps dls : Nat)
    (rest : List (ImageMarker × Resolution)) (prompt key : List Char)
    (hkey : key ≠ []) (uf : Fetch Unit) (s : Nat) (hs : 400 ≤ s)
    (entries : List OpenAIImageEntry) :
    generate_openai_image prompt [] (Fetch.resp 200 entries) uf =
      .error (.valueError "OpenAI API key is missing.") ∧
    generate_openai_image prompt key Fetch.exn uf = .error .requestException ∧
    generate_openai_image prompt key (Fetch.resp s entries) uf =
      .error (.valueError "OpenAI error") ∧
    generate_openai_image prompt key (Fetch.resp 200 []) uf =
      .error (.valueError "OpenAI image generation returned no image data.") ∧
    process_note_loop u off reps dls ((m, Resolution.raiseExc) :: rest) =
      process_note_loop u off reps dls rest := by
  refine ⟨rfl, ?_, ?_, ?_, ?_⟩
  · simp [generate_openai_image, hkey]
  · simp [generate_openai_image, hkey, hs]
  · simp [generate_openai_image, hkey]
  · rw [process_note_loop, hk, resolveStep_aiimage_raise]

/-- Witness for C8's theorem at concrete inputs. -/
theorem aiimage_failure_guarded_witness :
    (({ kind := "AIIMAGE", query := [], alt := none, quoted := false,
        quote_char := none, start := 0, «end» := 0 } : ImageMarker).kind = "AIIMAGE" ∧
      "k".toList ≠ [] ∧ 400 ≤ 404) ∧
    (generate_openai_image "x".toList [] (Fetch.resp 200 []) Fetch.exn =
        .error (.valueError "OpenAI API key is missing.") ∧
      generate_openai_image "x".toList "k".toList Fetch.exn Fetch.exn =
        .error .requestException ∧
      generate_openai_image "x".toList "k".toList (Fetch.resp 404 []) Fetch.exn =
        .error (.valueError "OpenAI error") ∧
      generate_openai_image "x".toList "k".toList (Fetch.resp 200 []) Fetch.exn =
        .error (.valueError "OpenAI image generation returned no image data.") ∧
      process_note_loop [] 0 0 0
          [({ kind := "AIIMAGE", query := [], alt := none, quoted := false,
              quote_char := none, start := 0, «end» := 0 }, Resolution.raiseExc)] =
        process_note_loop [] 0 0 0 []) :=
  ⟨⟨rfl, by decide, by decide⟩,
    aiimage_failure_guarded
      { kind := "AIIMAGE", query := [], alt := none, quoted := false,
        quote_char := none, start := 0, «end» := 0 } rfl [] 0 0 0 []
      "x".toList "k".toList (by decide) Fetch.exn 404 (by decide) []⟩

/-! ## Claim C5: network errors propagate — except in BOOKISBN -/

lemma raisesForStatus_true {s : Nat} (hs : 400 ≤ s) (hs6 : s < 600) :
    raisesForStatus s = true := by
  simp only [raisesForStatus, Bool.and_eq_true, decide_eq_true_iff]
  exact ⟨hs, hs6⟩

lemma resolveStep_raise_of_mem {k : String} (h1 : k ∈ validKinds)
    (h2 : ¬ k = "AIIMAGE") : resolveStep k Resolution.raiseExc = .error () := by
  simp only [resolveStep, if_neg h2, if_pos h1]

/-- Claim C5 (amended): for the IMAGE, BOOK, MOVIE and TV strategies a
request exception or a 4xx/5xx response during any of their lookups
propagates out of the strategy function as an exception, and an exception
raised by any non-AIIMAGE strategy call aborts the note's rewrite loop;
the BOOKISBN strategy, however, catches request exceptions from its
cover-endpoint existence probe inside its own `try/except` and converts
them — like error statuses — into a "not found" result. -/
theorem network_error_propagation
    (s : Nat) (hs : 400 ≤ s) (hs6 : s < 600)
    (key q t : List Char) (hkey : key ≠ [])
    (b1 : Option (List Char)) (f2 : Fetch (Option (List Char)))
    (bol : Option (Option Nat × Option (List Char))) (btm : Option TmdbEntry)
    (m : ImageMarker) (hm : m.kind ∈ ["IMAGE", "BOOK", "BOOKISBN", "MOVIE", "TV"])
    (u : List Char) (off : Int) (reps dls : Nat)
    (rest : List (ImageMarker × Resolution))
    (isbn : List Char) (hisbn : ¬ isbn.filter isIsbnChar = []) (sp : Nat)
    (hsp : 400 ≤ sp) :
    search_wikimedia Fetch.exn f2 = .error .requestException ∧
    search_wikimedia (Fetch.resp s b1) f2 = .error .httpError ∧
    search_wikimedia (Fetch.resp 200 (some t)) Fetch.exn = .error .requestException ∧
    search_wikimedia (Fetch.resp 200 (some t)) (Fetch.resp s b1) = .error .httpError ∧
    search_open_library_cover q Fetch.exn = .error .requestException ∧
    search_open_library_cover q (Fetch.resp s bol) = .error .httpError ∧
    search_tmdb_poster q key Fetch.exn = .error .requestException ∧
    search_tmdb_poster q key (Fetch.resp s btm) = .error .httpError ∧
    search_tmdb_tv_poster q key Fetch.exn = .error .requestException ∧
    search_tmdb_tv_poster q key (Fetch.resp s btm) = .error .httpError ∧
    process_note_loop u off reps dls ((m, Resolution.raiseExc) :: rest) = .error () ∧
    search_open_library_isbn isbn Fetch.exn = .ok none ∧
    search_open_library_isbn isbn (Fetch.resp sp ()) = .ok none := by
  have hrs := raisesForStatus_true hs hs6
  have hrs200 : raisesForStatus 200 = false := rfl
  refine ⟨rfl, ?_, ?_, ?_, rfl, ?_, ?_, ?_, ?_, ?_, ?_, ?_, ?_⟩
  · simp [search_wikimedia, hrs]
  · rfl
  · simp [search_wikimedia, hrs, hrs200]
  · simp [search_open_library_cover, hrs]
  · simp [search_tmdb_poster, _tmdb_search_first_result, hkey]
  · simp [search_tmdb_poster, _tmdb_search_first_result, hkey, hrs]
  · simp [search_tmdb_tv_poster, _tmdb_search_first_result, hkey]
  · simp [search_tmdb_tv_poster, _tmdb_search_first_result, hkey, hrs]
  · simp only [List.mem_cons, List.not_mem_nil, or_false] at hm
    rcases hm with h | h | h | h | h <;>
      rw [process_note_loop, h, resolveStep_raise_of_mem (by decide) (by decide)]
  · simp [search_open_library_isbn, hisbn]
  · simp [search_open_library_isbn, hisbn, hsp]

/-- Witness for C5's theorem at concrete inputs. -/
theorem network_error_propagation_witness :
    (400 ≤ 404 ∧ 404 < 600 ∧ "k".toList ≠ [] ∧
      ({ kind := "IMAGE", query := [], alt := none, quoted := false,
         quote_char := none, start := 0, «end» := 0 } : ImageMarker).kind ∈
        ["IMAGE", "BOOK", "BOOKISBN", "MOVIE", "TV"] ∧
      ¬ ("123".toList.filter isIsbnChar = []) ∧ 400 ≤ 500) ∧
    (search_wikimedia Fetch.exn Fetch.exn = .error .requestException ∧
      search_wikimedia (Fetch.resp 404 none) Fetch.exn = .error .httpError ∧
      search_wikimedia (Fetch.resp 200 (some "t".toList)) Fetch.exn =
        .error .requestException ∧
      search_wikimedia (Fetch.resp 200 (some "t".toList)) (Fetch.resp 404 none) =
        .error .httpError ∧
      search_open_library_cover "q".toList Fetch.exn = .error .requestException ∧
      search_open_library_cover "q".toList (Fetch.resp 404 none) = .error .httpError ∧
      search_tmdb_poster "q".toList "k".toList Fetch.exn = .error .requestException ∧
      search_tmdb_poster "q".toList "k".toList (Fetch.resp 404 none) =
        .error .httpError ∧
      search_tmdb_tv_poster "q".toList "k".toList Fetch.exn =
        .error .requestException ∧
      search_tmdb_tv_poster "q".toList "k".toList (Fetch.resp 404 none) =
        .error .httpError ∧
      process_note_loop [] 0 0 0
          [({ kind := "IMAGE", query := [], alt := none, quoted := false,
              quote_char := none, start := 0, «end» := 0 }, Resolution.raiseExc)] =
        .error () ∧
      search_open_library_isbn "123".toList Fetch.exn = .ok none ∧
      search_open_library_isbn "123".toList (Fetch.resp 500 ()) = .ok none) :=
  ⟨⟨by decide, by decide, by decide, by decide, by decide, by decide⟩,
    network_error_propagation 404 (by decide) (by decide) "k".toList "q".toList
      "t".toList (by decide) none Fetch.exn none none
      { kind := "IMAGE", query := [], alt := none, quoted := false,
        quote_char := none, start := 0, «end» := 0 } (by decide) [] 0 0 0 []
      "123".toList (by decide) 500 (by decide)⟩

/-- Claim C5's BOOKISBN part is false: `search_open_library_isbn` wraps its
probe in `try/except requests.RequestException` and returns `None` — the
probe exception for query "123" yields `.ok none`, not an error. -/
theorem bookisbn_catches_cex : ¬ bookisbnPropagatesClaim := by
  intro h
  obtain ⟨e, he⟩ := h "123".toList (by decide)
  rw [show search_open_library_isbn "123".toList Fetch.exn = .ok none from rfl] at he
  cases he

/-! ## Claim C6: dry-run and file mutation -/

/-- Claim C6 (amended): with `--apply` absent the per-note driver neither
writes the note file nor creates a backup file. -/
theorem dry_run_no_note_writes (yesFlag confirmWrites confirmAnswer : Bool)
    (original : List Char) (res : List Resolution) (eff : MainEffects)
    (h : main_note_step false yesFlag confirmWrites confirmAnswer original res = some eff) :
    eff.wroteNote = false ∧ eff.wroteBackup = false := by
  unfold main_note_step at h
  cases hp : process_note original res with
  | error e => rw [hp] at h; cases h
  | ok v =>
      obtain ⟨updated, mc, rc, dls⟩ := v
      rw [hp] at h
      dsimp only [] at h
      by_cases h1 : mc = 0
      · rw [if_pos h1] at h; cases h; exact ⟨rfl, rfl⟩
      rw [if_neg h1] at h
      by_cases h2 : rc = 0
      · rw [if_pos h2] at h; cases h; exact ⟨rfl, rfl⟩
      rw [if_neg h2] at h
      by_cases h3 : updated = original
      · rw [if_pos h3] at h; cases h; exact ⟨rfl, rfl⟩
      rw [if_neg h3, if_pos (show (!false) = true from rfl)] at h
      cases h
      exact ⟨rfl, rfl⟩

/-- Witness for C6's theorem at a concrete input. -/
theorem dry_run_no_note_writes_witness :
    main_note_step false false false false "x".toList [] =
      some { wroteNote := false, wroteBackup := false, attachmentWrites := 0 } ∧
    ({ wroteNote := false, wroteBackup := false, attachmentWrites := 0 } :
        MainEffects).wroteNote = false ∧
    ({ wroteNote := false, wroteBackup := false, attachmentWrites := 0 } :
        MainEffects).wroteBackup = false :=
  ⟨by decide,
    (dry_run_no_note_writes false false false "x".toList [] _ (by decide)).1,
    (dry_run_no_note_writes false false false "x".toList [] _ (by decide)).2⟩

/-- Claim C6 is false about the attachments directory: `process_note` runs
its resolution-and-download step before `main` ever consults `--apply`, so
a dry run over a note with one resolvable IMAGE marker still downloads the
image into the attachments directory (one file written). -/
theorem dry_run_downloads_cex : ¬ dryRunNoMutationClaim := by
  intro h
  have := h false false false ("<!-- IMAGE: x -->".toList)
    [Resolution.found ("![[attachments/x.jpg]]".toList) false]
    { wroteNote := false, wroteBackup := false, attachmentWrites := 1 } (by decide)
  exact absurd this.2.2 (by decide)

/-! ## Claim C1: the rewrite loop produces the interleaved concatenation -/

lemma resolveStep_notFound_of_mem {k : String} (h1 : k ∈ validKinds) :
    resolveStep k Resolution.notFound = .ok none := by
  by_cases h2 : k = "AIIMAGE" <;> simp [resolveStep, h2, h1]

lemma resolveStep_found_of_mem {k : String} (h1 : k ∈ validKinds) (rep : List Char) :
    resolveStep k (Resolution.found rep false) = .ok (some (rep, true)) := by
  by_cases h2 : k = "AIIMAGE" <;> simp [resolveStep, h2, h1]

lemma pairsOk_mono {n : Nat} {pairs : List (ImageMarker × Option (List Char))}
    {p q : Nat} (hpq : p ≤ q) (h : pairsOk n q pairs = true) :
    pairsOk n p pairs = true := by
  cases pairs with
  | nil => rfl
  | cons hd tl =>
      simp only [pairsOk, Bool.and_eq_true, decide_eq_true_iff] at h ⊢
      exact ⟨⟨⟨le_trans hpq h.1.1.1, h.1.1.2⟩, h.1.2⟩, h.2⟩

lemma process_note_loop_spec (text : List Char)
    (pairs : List (ImageMarker × Option (List Char))) :
    ∀ (acc : List Char) (pos reps dls : Nat),
      pairsOk text.length pos pairs = true →
      (∀ p ∈ pairs, p.1.kind ∈ validKinds) →
      Except.map (fun r => r.1)
        (process_note_loop (acc ++ text.drop pos)
          ((acc.length : Int) - (pos : Int)) reps dls
          (pairs.map (fun p => (p.1, toResolution p.2)))) =
      Except.ok (acc ++ expectedRewrite text pos pairs) := by
  induction pairs with
  | nil =>
      intro acc pos reps dls hok hkinds
      simp [process_note_loop, expectedRewrite, Except.map]
  | cons hd rest ih =>
      intro acc pos reps dls hok hkinds
      obtain ⟨m, o⟩ := hd
      simp only [pairsOk, Bool.and_eq_true, decide_eq_true_iff] at hok
      obtain ⟨⟨⟨hps, hse⟩, hetext⟩, hokr⟩ := hok
      have hkm : m.kind ∈ validKinds := hkinds (m, o) (List.mem_cons_self _ _)
      have hkr : ∀ p ∈ rest, p.1.kind ∈ validKinds :=
        fun p hp => hkinds p (List.mem_cons_of_mem _ hp)
      cases o with
      | none =>
          simp only [List.map_cons, toResolution]
          rw [process_note_loop, resolveStep_notFound_of_mem hkm]
          simp only [expectedRewrite]
          exact ih acc pos reps dls (pairsOk_mono (le_trans hps hse) hokr) hkr
      | some rep =>
          simp only [List.map_cons, toResolution]
          rw [process_note_loop, resolveStep_found_of_mem hkm]
          have hstart : ((m.start : Int) + ((acc.length : Int) - (pos : Int))).toNat
              = acc.length + (m.start - pos) := by omega
          have hstop : ((m.«end» : Int) + ((acc.length : Int) - (pos : Int))).toNat
              = acc.length + (m.«end» - pos) := by omega
          simp only [hstart, hstop, if_true]
          rw [List.take_append, List.drop_append, List.drop_drop]
          have hde : pos + (m.«end» - pos) = m.«end» := by omega
          rw [hde]
          have hlen : ((text.drop pos).take (m.start - pos)).length = m.start - pos := by
            rw [List.length_take, List.length_drop]
            omega
          have hoff :
              (acc.length : Int) - (pos : Int) + (rep.length : Int) -
                  ((m.«end» : Int) - (m.start : Int)) =
                (((acc ++ ((text.drop pos).take (m.start - pos) ++ rep)).length : Int)
                  - (m.«end» : Int)) := by
            simp only [List.length_append, hlen]
            push_cast
            omega
          rw [hoff]
          have hrec := ih (acc ++ ((text.drop pos).take (m.start - pos) ++ rep))
            m.«end» (reps + 1) (dls + 1) hokr hkr
          simp only [expectedRewrite, List.append_assoc] at hrec ⊢
          exact hrec

/-- Claim C1: for every document text and every list of (marker, optional
replacement) pairs whose spans are non-overlapping, in ascending
original-position order and within the text, the rewrite loop of
`process_note` — running offset `0` from the original text, splicing each
resolved replacement at `marker.start + offset .. marker.end + offset` and
advancing the offset by `len(replacement) - (marker.end - marker.start)`,
while skipping unresolved markers with no splice and no offset change —
produces exactly the concatenation of the text before the first replaced
marker, each replacement interleaved with the untouched gaps between
replaced markers, and the text after the last replaced marker. -/
theorem process_note_rewrite_correct (text : List Char)
    (pairs : List (ImageMarker × Option (List Char)))
    (hok : pairsOk text.length 0 pairs = true)
    (hkinds : ∀ p ∈ pairs, p.1.kind ∈ validKinds) :
    Except.map (fun r => r.1)
      (process_note_loop text 0 0 0 (pairs.map (fun p => (p.1, toResolution p.2)))) =
    Except.ok (expectedRewrite text 0 pairs) := by
  have h := process_note_loop_spec text pairs [] 0 0 0 hok hkinds
  simpa using h

/-- Witness for C1's theorem at a concrete input: markers `2..4` (replaced
by the longer `XYZ`) and `5..7` (unresolved, skipped) over `0123456789`. -/
theorem process_note_rewrite_correct_witness :
    (pairsOk ("0123456789".toList).length 0
        [({ kind := "IMAGE", query := [], alt := none, quoted := false,
            quote_char := none, start := 2, «end» := 4 }, some "XYZ".toList),
         ({ kind := "BOOK", query := [], alt := none, quoted := false,
            quote_char := none, start := 5, «end» := 7 }, none)] = true ∧
      (∀ p ∈ [(({ kind := "IMAGE", query := [], alt := none, quoted := false,
                  quote_char := none, start := 2, «end» := 4 } : ImageMarker),
                some "XYZ".toList),
              ({ kind := "BOOK", query := [], alt := none, quoted := false,
                 quote_char := none, start := 5, «end» := 7 }, none)],
        p.1.kind ∈ validKinds)) ∧
    Except.map (fun r => r.1)
      (process_note_loop "0123456789".toList 0 0 0
        ([({ kind := "IMAGE", query := [], alt := none, quoted := false,
             quote_char := none, start := 2, «end» := 4 }, some "XYZ".toList),
          ({ kind := "BOOK", query := [], alt := none, quoted := false,
             quote_char := none, start := 5, «end» := 7 }, none)].map
          (fun p => (p.1, toResolution p.2)))) =
    Except.ok (expectedRewrite "0123456789".toList 0
        [({ kind := "IMAGE", query := [], alt := none, quoted := false,
            quote_char := none, start := 2, «end» := 4 }, some "XYZ".toList),
         ({ kind := "BOOK", query := [], alt := none, quoted := false,
            quote_char := none, start := 5, «end» := 7 }, none)]) :=
  ⟨⟨by decide, by decide⟩,
    process_note_rewrite_correct "0123456789".toList _ (by decide) (by decide)⟩

/-! ## Claims C2 and C7: properties of the marker scan

Every parser combinator invokes its continuation only on suffixes of its
input; the mandatory literals (`<!--`, `:`, `-->`) and the mandatory query
character make every match strictly consume input, so every marker
satisfies `start < end` and the `finditer` scan resumes at or after the
previous match end, giving non-overlapping, ordered spans. -/

lemma orElse_eq_some {α : Type} {x y : Option α} {a : α} (h : (x <|> y) = some a) :
    x = some a ∨ y = some a := by
  cases x <;> simp_all

lemma wsStar_eq_some {α : Type} {k : List Char → Option α} {a : α} :
    ∀ {cs : List Char}, wsStar cs k = some a → ∃ cs1, cs1 <:+ cs ∧ k cs1 = some a := by
  intro cs
  induction cs with
  | nil => intro h; exact ⟨[], List.suffix_refl _, h⟩
  | cons c rest ih =>
      intro h
      simp only [wsStar] at h
      by_cases hc : isPySpace c = true
      · rw [if_pos hc] at h
        rcases orElse_eq_some h with h1 | h1
        · obtain ⟨cs1, hsuf, hk⟩ := ih h1
          exact ⟨cs1, hsuf.trans (List.suffix_cons c rest), hk⟩
        · exact ⟨c :: rest, List.suffix_refl _, h1⟩
      · rw [if_neg hc] at h
        exact ⟨c :: rest, List.suffix_refl _, h⟩

lemma lazyPlus_eq_some {α : Type} {pred : Char → Bool} :
    ∀ {cs : List Char} {k : List Char → List Char → Option α} {a : α},
      lazyPlus pred cs k = some a →
      ∃ t cs1, cs1 <:+ cs ∧ cs1.length < cs.length ∧ k t cs1 = some a := by
  intro cs
  induction cs with
  | nil => intro k a h; simp [lazyPlus] at h
  | cons c rest ih =>
      intro k a h
      simp only [lazyPlus] at h
      by_cases hc : pred c = true
      · rw [if_pos hc] at h
        rcases orElse_eq_some h with h1 | h1
        · exact ⟨[c], rest, List.suffix_cons c rest, by simp, h1⟩
        · obtain ⟨t, cs1, hsuf, hlt, hk⟩ := ih h1
          refine ⟨c :: t, cs1, hsuf.trans (List.suffix_cons c rest), ?_, hk⟩
          simp only [List.length_cons]
          omega
      · rw [if_neg hc] at h
        cases h

lemma lit_eq_some : ∀ {pat cs cs1 : List Char}, lit pat cs = some cs1 →
    cs1 <:+ cs ∧ cs.length = pat.length + cs1.length := by
  intro pat
  induction pat with
  | nil =>
      intro cs cs1 h
      simp only [lit, Option.some.injEq] at h
      subst h
      exact ⟨List.suffix_refl _, by simp⟩
  | cons p ps ih =>
      intro cs cs1 h
      cases cs with
      | nil => simp [lit] at h
      | cons c cs2 =>
          simp only [lit] at h
          by_cases hc : c = p
          · rw [if_pos hc] at h
            obtain ⟨hsuf, hlen⟩ := ih h
            refine ⟨hsuf.trans (List.suffix_cons c cs2), ?_⟩
            simp only [List.length_cons]
            omega
          · rw [if_neg hc] at h
            cases h

lemma litCI_eq_some : ∀ {pat cs cs1 : List Char}, litCI pat cs = some cs1 →
    cs1 <:+ cs ∧ cs.length = pat.length + cs1.length := by
  intro pat
  induction pat with
  | nil =>
      intro cs cs1 h
      simp only [litCI, Option.some.injEq] at h
      subst h
      exact ⟨List.suffix_refl _, by simp⟩
  | cons p ps ih =>
      intro cs cs1 h
      cases cs with
      | nil => simp [litCI] at h
      | cons c cs2 =>
          simp only [litCI] at h
          by_cases hc : c.toLower = p.toLower
          · rw [if_pos hc] at h
            obtain ⟨hsuf, hlen⟩ := ih h
            refine ⟨hsuf.trans (List.suffix_cons c cs2), ?_⟩
            simp only [List.length_cons]
            omega
          · rw [if_neg hc] at h
            cases h

lemma litK_eq_some {α : Type} {pat cs : List Char} {k : List Char → Option α} {a : α}
    (h : litK pat cs k = some a) :
    ∃ cs1, cs1 <:+ cs ∧ cs.length = pat.length + cs1.length ∧ k cs1 = some a := by
  unfold litK at h
  cases hl : lit pat cs with
  | none => rw [hl] at h; cases h
  | some cs1 =>
      rw [hl] at h
      obtain ⟨hsuf, hlen⟩ := lit_eq_some hl
      exact ⟨cs1, hsuf, hlen, h⟩

lemma tryKinds_eq_some {α : Type} :
    ∀ {alts : List String} {cs : List Char} {k : String → List Char → Option α} {a : α},
      tryKinds alts cs k = some a → ∃ s cs1, cs1 <:+ cs ∧ k s cs1 = some a := by
  intro alts
  induction alts with
  | nil => intro cs k a h; simp [tryKinds] at h
  | cons alt rest ih =>
      intro cs k a h
      simp only [tryKinds] at h
      rcases orElse_eq_some h with h1 | h1
      · cases hl : litCI alt.toList cs with
        | none => rw [hl] at h1; cases h1
        | some cs1 =>
            rw [hl] at h1
            exact ⟨alt, cs1, (litCI_eq_some hl).1, h1⟩
      · obtain ⟨s, cs1, hsuf, hk⟩ := ih h1
        exact ⟨s, cs1, hsuf, hk⟩

lemma closeQuote_eq_some {α : Type} {q : Option Char} {cs : List Char}
    {k : List Char → Option α} {a : α} (h : closeQuote q cs k = some a) :
    ∃ cs1, cs1 <:+ cs ∧ k cs1 = some a := by
  cases q with
  | none => exact ⟨cs, List.suffix_refl _, h⟩
  | some qc =>
      cases cs with
      | nil => exact ⟨[], List.suffix_refl _, h⟩
      | cons c rest =>
          simp only [closeQuote] at h
          by_cases hc : c = qc
          · rw [if_pos hc] at h
            rcases orElse_eq_some h with h1 | h1
            · exact ⟨rest, List.suffix_cons c rest, h1⟩
            · exact ⟨c :: rest, List.suffix_refl _, h1⟩
          · rw [if_neg hc] at h
            exact ⟨c :: rest, List.suffix_refl _, h⟩

lemma altGroup_eq_some {α : Type} {cs : List Char}
    {k : Option (List Char) → List Char → Option α} {a : α}
    (h : altGroup cs k = some a) :
    ∃ o cs1, cs1 <:+ cs ∧ k o cs1 = some a := by
  cases cs with
  | nil =>
      simp only [altGroup] at h
      rcases orElse_eq_some h with h1 | h1
      · cases h1
      · exact ⟨none, [], List.suffix_refl _, h1⟩
  | cons c cs1 =>
      simp only [altGroup] at h
      rcases orElse_eq_some h with h1 | h1
      · by_cases hc : c = '|'
        · rw [if_pos hc] at h1
          obtain ⟨cs2, hsuf2, hk2⟩ := wsStar_eq_some h1
          obtain ⟨t, cs3, hsuf3, hlt3, hk3⟩ := lazyPlus_eq_some hk2
          obtain ⟨cs4, hsuf4, hk4⟩ := wsStar_eq_some hk3
          exact ⟨some t, cs4,
            ((hsuf4.trans hsuf3).trans hsuf2).trans (List.suffix_cons c cs1), hk4⟩
        · rw [if_neg hc] at h1
          cases h1
      · exact ⟨none, c :: cs1, List.suffix_refl _, h1⟩

lemma afterAlt_eq_some {q : Option Char} {kind : String} {query : List Char}
    {alt : Option (List Char)} {cs : List Char} {r : RawMatch}
    (h : afterAlt q kind query alt cs = some r) :
    r.quote = q ∧ r.rest.length < cs.length := by
  obtain ⟨cs1, hsuf1, hlen1, hk1⟩ := litK_eq_some h
  obtain ⟨cs2, hsuf2, hk2⟩ := closeQuote_eq_some hk1
  injection hk2 with hr
  subst hr
  refine ⟨rfl, ?_⟩
  have h2 := hsuf2.length_le
  have hlen1' : cs.length = 3 + cs1.length := by simpa using hlen1
  simp only
  omega

lemma afterQuery_eq_some {q : Option Char} {kind : String} {query : List Char}
    {cs : List Char} {r : RawMatch} (h : afterQuery q kind query cs = some r) :
    r.quote = q ∧ r.rest.length < cs.length := by
  obtain ⟨cs1, hsuf1, hk1⟩ := wsStar_eq_some h
  obtain ⟨o, cs2, hsuf2, hk2⟩ := altGroup_eq_some hk1
  obtain ⟨hq, hlt⟩ := afterAlt_eq_some hk2
  exact ⟨hq, lt_of_lt_of_le hlt (hsuf2.length_le.trans hsuf1.length_le)⟩

lemma afterKind_eq_some {q : Option Char} {kind : String} {cs : List Char} {r : RawMatch}
    (h : afterKind q kind cs = some r) : r.quote = q ∧ r.rest.length < cs.length := by
  obtain ⟨cs1, hsuf1, hk1⟩ := wsStar_eq_some h
  obtain ⟨cs2, hsuf2, hlen2, hk2⟩ := litK_eq_some hk1
  obtain ⟨cs3, hsuf3, hk3⟩ := wsStar_eq_some hk2
  obtain ⟨t, cs4, hsuf4, hlt4, hk4⟩ := lazyPlus_eq_some hk3
  obtain ⟨hq, hlt⟩ := afterQuery_eq_some hk4
  refine ⟨hq, ?_⟩
  have h1 := hsuf1.length_le
  have h3 := hsuf3.length_le
  have hlen2' : cs1.length = 1 + cs2.length := by simpa using hlen2
  omega

lemma afterOpener_eq_some {q : Option Char} {cs : List Char} {r : RawMatch}
    (h : afterOpener q cs = some r) : r.quote = q ∧ r.rest.length < cs.length := by
  obtain ⟨cs1, hsuf1, hk1⟩ := wsStar_eq_some h
  obtain ⟨s, cs2, hsuf2, hk2⟩ := tryKinds_eq_some hk1
  obtain ⟨hq, hlt⟩ := afterKind_eq_some hk2
  exact ⟨hq, lt_of_lt_of_le hlt (hsuf2.length_le.trans hsuf1.length_le)⟩

lemma afterQuote_eq_some {q : Option Char} {cs : List Char} {r : RawMatch}
    (h : afterQuote q cs = some r) : r.quote = q ∧ r.rest.length < cs.length := by
  obtain ⟨cs1, hsuf1, hlen1, hk1⟩ := litK_eq_some h
  obtain ⟨hq, hlt⟩ := afterOpener_eq_some hk1
  refine ⟨hq, ?_⟩
  have hlen1' : cs.length = 4 + cs1.length := by simpa using hlen1
  omega

lemma matchCore_eq_some {cs : List Char} {r : RawMatch} (h : matchCore cs = some r) :
    r.rest.length < cs.length ∧
      (r.quote = none ∨
        ∃ qc cs1, cs = qc :: cs1 ∧ isQuoteChar qc = true ∧ r.quote = some qc) := by
  unfold matchCore tryQuote at h
  cases cs with
  | nil =>
      replace h : afterQuote none ([] : List Char) = some r := h
      obtain ⟨hq, hlt⟩ := afterQuote_eq_some h
      exact absurd hlt (by simp)
  | cons c rest =>
      replace h : (if isQuoteChar c = true then
          (afterQuote (some c) rest <|> afterQuote none (c :: rest))
        else afterQuote none (c :: rest)) = some r := h
      by_cases hc : isQuoteChar c = true
      · rw [if_pos hc] at h
        rcases orElse_eq_some h with h1 | h1
        · obtain ⟨hq, hlt⟩ := afterQuote_eq_some h1
          refine ⟨?_, Or.inr ⟨c, rest, rfl, hc, hq⟩⟩
          simp only [List.length_cons]
          omega
        · obtain ⟨hq, hlt⟩ := afterQuote_eq_some h1
          exact ⟨hlt, Or.inl hq⟩
      · rw [if_neg hc] at h
        obtain ⟨hq, hlt⟩ := afterQuote_eq_some h
        exact ⟨hlt, Or.inl hq⟩

lemma find_markers_go_props (text : List Char) :
    ∀ fuel i,
      (∀ m ∈ find_markers_go text fuel i,
          i ≤ m.start ∧ m.start < m.«end» ∧
          m.quoted = m.quote_char.isSome ∧
          ∀ qc, m.quote_char = some qc →
            isQuoteChar qc = true ∧ text[m.start]? = some qc) ∧
      List.Chain' (fun a b => a.«end» ≤ b.start) (find_markers_go text fuel i) := by
  intro fuel
  induction fuel with
  | zero =>
      intro i
      constructor
      · intro m hm
        simp [find_markers_go] at hm
      · simp [find_markers_go]
  | succ fuel ih =>
      intro i
      by_cases hi : i ≤ text.length
      · rw [find_markers_go, if_pos hi]
        cases hm : matchCore (text.drop i) with
        | none =>
            obtain ⟨ht, hc⟩ := ih (i + 1)
            constructor
            · intro m hmem
              obtain ⟨hs, rest⟩ := ht m hmem
              exact ⟨by omega, rest⟩
            · exact hc
        | some r =>
            obtain ⟨hlt, hquote⟩ := matchCore_eq_some hm
            have hlen1 : 1 ≤ (text.drop i).length - r.rest.length := by omega
            have hmax : max ((text.drop i).length - r.rest.length) 1
                = (text.drop i).length - r.rest.length := Nat.max_eq_left hlen1
            obtain ⟨ht, hc⟩ := ih (i + max ((text.drop i).length - r.rest.length) 1)
            constructor
            · intro m hmem
              rcases List.mem_cons.mp hmem with hhead | htail
              · subst hhead
                refine ⟨le_refl _, by simp only [List.length_drop] at hlen1 ⊢; omega, rfl, ?_⟩
                intro qc hqc
                simp only at hqc
                rcases hquote with hnone | ⟨qc1, cs1, hdrop, hqchar, hq1⟩
                · rw [hnone] at hqc
                  cases hqc
                · rw [hq1] at hqc
                  injection hqc with he
                  refine ⟨?_, ?_⟩
                  · rw [← he]
                    exact hqchar
                  · have h0 : (text.drop i)[0]? = some qc1 := by
                      rw [hdrop]
                      simp
                    rw [List.getElem?_drop] at h0
                    rw [← he]
                    simpa using h0
              · obtain ⟨hs, rest⟩ := ht m htail
                exact ⟨by omega, rest⟩
            · rw [List.chain'_cons']
              constructor
              · intro b hb
                have hbmem := List.mem_of_mem_head? hb
                obtain ⟨hs, _⟩ := ht b hbmem
                simp only
                omega
              · exact hc
      · rw [find_markers_go, if_neg hi]
        constructor
        · intro m hm
          cases hm
        · exact List.chain'_nil

/-- Claim C2: `find_markers` returns markers in document order: every
marker satisfies `start < end`, consecutive spans do not overlap (each
marker's start is at least the previous marker's end), and — `find_markers`
being a pure function of the text — re-running it on the same unmodified
text yields exactly the same markers with identical offsets. -/
theorem find_markers_ordered (text : List Char) :
    (∀ m ∈ find_markers text, m.start < m.«end») ∧
    List.Chain' (fun a b => a.«end» ≤ b.start) (find_markers text) ∧
    find_markers text = find_markers text := by
  obtain ⟨h1, h2⟩ := find_markers_go_props text (text.length + 1) 0
  exact ⟨fun m hm => (h1 m hm).2.1, h2, rfl⟩

/-- Witness for C2's theorem at a concrete input. -/
theorem find_markers_ordered_witness :
    ({ kind := "IMAGE", query := "x".toList, alt := none, quoted := false,
       quote_char := none, start := 2, «end» := 19 } : ImageMarker) ∈
        find_markers "ab<!-- IMAGE: x -->cd".toList ∧
    ({ kind := "IMAGE", query := "x".toList, alt := none, quoted := false,
       quote_char := none, start := 2, «end» := 19 } : ImageMarker).start <
      ({ kind := "IMAGE", query := "x".toList, alt := none, quoted := false,
         quote_char := none, start := 2, «end» := 19 } : ImageMarker).«end» :=
  ⟨by decide, (find_markers_ordered "ab<!-- IMAGE: x -->cd".toList).1 _ (by decide)⟩

/-- Claim C7 (amended): for every marker returned by `find_markers`,
`quoted` is true exactly when a leading quote character was captured
(`quote_char` is set), and the captured quote character is a double or
single quote sitting at the very start of the marker's span (the span
includes it).  A matching trailing quote, when present, is consumed into
the span as well, but `quoted` does not require one. -/
theorem find_markers_quoted_iff (text : List Char) :
    ∀ m ∈ find_markers text,
      (m.quoted = true ↔ ∃ qc, m.quote_char = some qc) ∧
      ∀ qc, m.quote_char = some qc →
        isQuoteChar qc = true ∧ text[m.start]? = some qc := by
  intro m hm
  obtain ⟨h1, _⟩ := find_markers_go_props text (text.length + 1) 0
  obtain ⟨_, _, hq, hqc⟩ := h1 m hm
  constructor
  · rw [hq]
    exact Option.isSome_iff_exists
  · exact hqc

/-- Witness for C7's theorem at a concrete input. -/
theorem find_markers_quoted_iff_witness :
    ({ kind := "IMAGE", query := "x".toList, alt := none, quoted := true,
       quote_char := some '"', start := 0, «end» := 18 } : ImageMarker) ∈
        find_markers "\"<!-- IMAGE: x -->".toList ∧
    (({ kind := "IMAGE", query := "x".toList, alt := none, quoted := true,
        quote_char := some '"', start := 0, «end» := 18 } : ImageMarker).quoted = true ↔
      ∃ qc, ({ kind := "IMAGE", query := "x".toList, alt := none, quoted := true,
               quote_char := some '"', start := 0, «end» := 18 } : ImageMarker).quote_char
          = some qc) :=
  ⟨by decide,
    ((find_markers_quoted_iff "\"<!-- IMAGE: x -->".toList) _ (by decide)).1⟩

/-- Claim C7 is false: the trailing `(?P=quote)?` of `MARKER_PATTERN` is
optional, so on `"<!-- IMAGE: x -->` (opening double quote, no closing
quote) the single marker has `quoted = true` although its span ends at
`-->` with no following quote character. -/
theorem quoted_without_closing_quote_cex :
    ¬ quotedIffSurroundedClaim ("\"<!-- IMAGE: x -->".toList) := by
  intro h
  have := h { kind := "IMAGE", query := "x".toList, alt := none, quoted := true,
              quote_char := some '"', start := 0, «end» := 18 } (by decide)
  exact absurd this (by decide)

/-! ## Concrete evaluations pinning the embedding to observed behavior -/

/-- The grammar on a plain marker: span, kind, trimmed query. -/
theorem find_markers_eval_plain :
    find_markers "ab<!-- IMAGE: Eiffel Tower -->cd".toList =
      [{ kind := "IMAGE", query := "Eiffel Tower".toList, alt := none,
         quoted := false, quote_char := none, start := 2, «end» := 30 }] := by
  decide

/-- Case-insensitive kind, alt capture, single-quote wrapping (both quotes
inside the span). -/
theorem find_markers_eval_quoted_alt :
    find_markers "'<!-- book: Dune | alt text -->'".toList =
      [{ kind := "BOOK", query := "Dune".toList, alt := some "alt text".toList,
         quoted := true, quote_char := some (Char.ofNat 39), start := 0,
         «end» := 32 }] := by
  decide

/-- The ordered alternation settles on BOOKISBN although BOOK is tried
first (BOOK's continuation fails at the `:`). -/
theorem find_markers_eval_bookisbn :
    find_markers "<!-- BOOKISBN: 978-0441013593 -->".toList =
      [{ kind := "BOOKISBN", query := "978-0441013593".toList, alt := none,
         quoted := false, quote_char := none, start := 0, «end» := 33 }] := by
  decide

/-- A whitespace-only query region still matches, with the query trimmed to
empty — structurally valid, as the spec's edge case states. -/
theorem find_markers_eval_empty_query :
    find_markers "<!-- IMAGE:  -->".toList =
      [{ kind := "IMAGE", query := [], alt := none,
         quoted := false, quote_char := none, start := 0, «end» := 16 }] := by
  decide

/-- A kind outside the closed enumeration is simply not matched. -/
theorem find_markers_eval_unknown_kind :
    find_markers "<!-- BANANA: x -->".toList = [] := by
  decide

/-- Whitespace runs collapse to one underscore; disallowed characters are
dropped; the empty result falls back to `"image"`. -/
theorem sanitize_filename_eval :
    _sanitize_filename "a  b.png".toList = "a_b.png".toList ∧
    _sanitize_filename "".toList = "image".toList ∧
    download_filename "dune".toList = "dune.jpg".toList ∧
    download_filename "A.PNG".toList = "A.PNG".toList := by
  refine ⟨by decide, by decide, by decide, by decide⟩

/-- The spec's scenario: the rewrite of the parts around two markers, one
replaced by a longer string and one skipped. -/
theorem expectedRewrite_eval :
    expectedRewrite "0123456789".toList 0
        [({ kind := "IMAGE", query := [], alt := none, quoted := false,
            quote_char := none, start := 2, «end» := 4 }, some "XYZ".toList),
         ({ kind := "BOOK", query := [], alt := none, quoted := false,
            quote_char := none, start := 5, «end» := 7 }, none)] =
      "01XYZ456789".toList := by
  decide
